import Mathlib

/-!
Shallow embedding of the o3-search-mcp server (TypeScript sources:
`index.ts` / `claudeTools.ts` / `conversationStore.ts`), covering the
bounded multi-stage reasoning loop, the tool dispatcher and its
confirmation gate, the git diff builder, the MCP result normalizer and
the conversation store.  All string manipulation is implemented over
`List Char` so that every definition is executable by the kernel;
the helpers below reproduce the semantics of the JavaScript string
operations used by the source (`split`, `startsWith`, `includes`,
`trim`, `Array.join`, `String.replace` with a string pattern, which
replaces only the first occurrence).
-/

namespace O3Search

/-- `splitCharList sep l` splits `l` at every occurrence of the character
`sep`, keeping empty segments, exactly like JavaScript
`String.prototype.split` with a one-character separator. -/
def splitCharList (sep : Char) : List Char → List (List Char)
  | [] => [[]]
  | c :: cs =>
    let r := splitCharList sep cs
    if c = sep then [] :: r
    else
      match r with
      | [] => [[c]]
      | h :: t => (c :: h) :: t

/-- JavaScript `s.split(sep)` for a one-character separator. -/
def splitOnChar (sep : Char) (s : String) : List String :=
  (splitCharList sep s.data).map String.mk

/-- JavaScript `s.startsWith(p)`. -/
def strStartsWith (s p : String) : Bool :=
  p.data.isPrefixOf s.data

/-- `containsSubList needle hay` decides whether `needle` occurs as a
contiguous run inside `hay`. -/
def containsSubList (needle : List Char) : List Char → Bool
  | [] => needle.isEmpty
  | c :: cs => needle.isPrefixOf (c :: cs) || containsSubList needle cs

/-- JavaScript `hay.includes(needle)`. -/
def containsSub (hay needle : String) : Bool :=
  containsSubList needle.data hay.data

/-- JavaScript `arr.join(sep)`: the separator goes between elements. -/
def joinSep (sep : String) : List String → String
  | [] => ""
  | [x] => x
  | x :: xs => x ++ sep ++ joinSep sep xs

/-- JavaScript `s.replace(pat, repl)` with a string pattern: only the
first occurrence of `pat` is replaced. -/
def replaceFirstAux (pat repl : List Char) : List Char → List Char
  | [] => []
  | c :: cs =>
    if pat.isPrefixOf (c :: cs) then repl ++ (c :: cs).drop pat.length
    else c :: replaceFirstAux pat repl cs

/-- JavaScript `s.replace(pat, repl)` (first occurrence only). -/
def replaceFirst (s pat repl : String) : String :=
  String.mk (replaceFirstAux pat.data repl.data s.data)

/-- JavaScript `s.trim()`: strip whitespace from both ends. -/
def trimString (s : String) : String :=
  String.mk (((s.data.dropWhile Char.isWhitespace).reverse.dropWhile
    Char.isWhitespace).reverse)

/-!  ## Result normalizer (`claudeTools.ts`, `normalizeMcpResult`)  -/

/-- One normalized text segment (`{ type: "text", text }`). -/
structure TextSeg where
  text : String
deriving Repr, DecidableEq

/-- Normalized tool result shape (`ClaudeToolResult`); an absent JS
`isError` field is modeled as `false`. -/
structure ClaudeToolResult where
  content : List TextSeg
  isError : Bool
deriving Repr, DecidableEq

/-- The `resource` object carried by a resource content item; absent or
empty (falsy) string fields are modeled through `Option`/`""`. -/
structure McpResource where
  text : Option String
  uri : Option String
deriving Repr, DecidableEq

/-- A raw content item of a backend MCP result, tagged like the JS
values inspected by `normalizeMcpResult` (`item.type`).  The `other`
constructor stands for any item with an unrecognized tag; its payload
is the JSON serialization JavaScript would produce for it. -/
inductive McpItem where
  | text (t : Option String)
  | image (data : Option String) (mimeType : Option String)
  | resource (res : Option McpResource)
  | other (json : String)
deriving Repr, DecidableEq

/-- Models `JSON.stringify(item)` for the fall-through branch of
`normalizeMcpResult` (the exact rendering is irrelevant to the callers;
only that some generic text is produced). -/
def stringifyMcpItem : McpItem → String
  | .text none => "\x7b\"type\":\"text\"\x7d"
  | .text (some t) => "\x7b\"type\":\"text\",\"text\":\"" ++ t ++ "\"\x7d"
  | .image _ _ => "\x7b\"type\":\"image\"\x7d"
  | .resource _ => "\x7b\"type\":\"resource\"\x7d"
  | .other j => j

/-- JavaScript truthiness of an optional string field. -/
def optTruthy : Option String → Bool
  | none => false
  | some s => !(s = "")

/-- `item.mimeType || 'unknown'`. -/
def mimeOrUnknown : Option String → String
  | none => "unknown"
  | some m => if m = "" then "unknown" else m

/-- Per-item mapping of `normalizeMcpResult`: the JS `if` chain testing
`item.type === "text" && item.text`, then image, then resource, with a
`JSON.stringify` fallback. -/
def normalizeMcpItem (item : McpItem) : TextSeg :=
  match item with
  | .text t =>
    if optTruthy t then ⟨t.getD ""⟩ else ⟨stringifyMcpItem item⟩
  | .image data mimeType =>
    if optTruthy data then ⟨"[Image data: " ++ mimeOrUnknown mimeType ++ "]"⟩
    else ⟨stringifyMcpItem item⟩
  | .resource res =>
    match res with
    | some r =>
      if optTruthy r.text then ⟨r.text.getD ""⟩
      else if optTruthy r.uri then ⟨r.uri.getD ""⟩
      else ⟨"[Resource]"⟩
    | none => ⟨stringifyMcpItem item⟩
  | .other j => ⟨j⟩

/-- A raw MCP result.  `content = none` models a missing / falsy
`content` field; a non-array `content` value is wrapped by the source
into a one-element array, so lists cover that case as well. -/
structure McpResult where
  content : Option (List McpItem)
deriving Repr, DecidableEq

/-- `normalizeMcpResult` (`claudeTools.ts` lines 18-50).  The outer
argument is `Option`-wrapped because the JS code first tests
`!mcpResult`.  Note that an empty content *array* is truthy in
JavaScript, so it does not take the "No content received" branch. -/
def normalizeMcpResult (mcpResult : Option McpResult) : ClaudeToolResult :=
  match mcpResult with
  | none => ⟨[⟨"No content received from Claude tool"⟩], true⟩
  | some r =>
    match r.content with
    | none => ⟨[⟨"No content received from Claude tool"⟩], true⟩
    | some items => ⟨items.map normalizeMcpItem, false⟩

/-!  ## Tool wrappers and dispatcher (`claudeTools.ts`, `index.ts`)  -/

/-- The argument object handed to a tool invocation, mirroring the JSON
payloads of the function tools (absent properties are `none`). -/
structure FnArgs where
  file_path : Option String
  content : Option String
  old_string : Option String
  new_string : Option String
  command : Option String
  pattern : Option String
  path : Option String
  confirm : Option String
deriving Repr, DecidableEq

/-- The all-absent argument object. -/
def FnArgs.empty : FnArgs :=
  ⟨none, none, none, none, none, none, none, none⟩

/-- One call made to the external tool-execution backend (the Claude
MCP client): logical tool name plus argument object. -/
def BackendCall := String × FnArgs

/-- The external tool-execution backend (`client.callTool`), treated as
an opaque request/response oracle; a `none` answer models a falsy
result value. -/
def McpBackend := String → FnArgs → Option McpResult

/-- `viewFile` (`claudeTools.ts`): forwards to the backend `Read` tool
and normalizes; the second component records the backend calls made. -/
def viewFile (backend : McpBackend) (file_path : Option String) :
    ClaudeToolResult × List BackendCall :=
  let args := { FnArgs.empty with file_path := file_path }
  (normalizeMcpResult (backend "Read" args), [("Read", args)])

/-- `editFile` (`claudeTools.ts`): backend `Edit` tool. -/
def editFile (backend : McpBackend) (file_path old_string new_string : Option String) :
    ClaudeToolResult × List BackendCall :=
  let args := { FnArgs.empty with
    file_path := file_path, old_string := old_string, new_string := new_string }
  (normalizeMcpResult (backend "Edit" args), [("Edit", args)])

/-- `listDirectory` (`claudeTools.ts`): backend `LS` tool. -/
def listDirectory (backend : McpBackend) (path : Option String) :
    ClaudeToolResult × List BackendCall :=
  let args := { FnArgs.empty with path := path }
  (normalizeMcpResult (backend "LS" args), [("LS", args)])

/-- `writeFile` (`claudeTools.ts`): backend `Write` tool. -/
def writeFile (backend : McpBackend) (file_path content : Option String) :
    ClaudeToolResult × List BackendCall :=
  let args := { FnArgs.empty with file_path := file_path, content := content }
  (normalizeMcpResult (backend "Write" args), [("Write", args)])

/-- `runBash` (`claudeTools.ts`): backend `Bash` tool. -/
def runBash (backend : McpBackend) (command : Option String) :
    ClaudeToolResult × List BackendCall :=
  let args := { FnArgs.empty with command := command }
  (normalizeMcpResult (backend "Bash" args), [("Bash", args)])

/-- `grepFiles` (`claudeTools.ts`): backend `Grep` tool; `path` is only
attached when provided. -/
def grepFiles (backend : McpBackend) (pattern path : Option String) :
    ClaudeToolResult × List BackendCall :=
  let args :=
    match path with
    | some p => { FnArgs.empty with pattern := pattern, path := some p }
    | none => { FnArgs.empty with pattern := pattern }
  (normalizeMcpResult (backend "Grep" args), [("Grep", args)])

/-- Result of cancelling an unconfirmed `claude_write` call. -/
def writeCancelledResult : ClaudeToolResult :=
  ⟨[⟨"Write operation cancelled. User confirmation required."⟩], true⟩

/-- Result of cancelling an unconfirmed `claude_bash` call. -/
def bashCancelledResult : ClaudeToolResult :=
  ⟨[⟨"Command execution cancelled. User confirmation required."⟩], true⟩

/-- The in-loop function-call dispatch (`index.ts` lines 474-503): the
`switch (functionName)` over engine-requested tool calls, including the
confirmation gate `if (args.confirm === 'yes')` in front of the
mutating tools. -/
def dispatchFunctionCall (backend : McpBackend) (functionName : String)
    (args : FnArgs) : ClaudeToolResult × List BackendCall :=
  if functionName = "claude_view" then viewFile backend args.file_path
  else if functionName = "claude_edit" then
    editFile backend args.file_path args.old_string args.new_string
  else if functionName = "claude_ls" then listDirectory backend (some ".")
  else if functionName = "claude_write" then
    if args.confirm = some "yes" then writeFile backend args.file_path args.content
    else (writeCancelledResult, [])
  else if functionName = "claude_bash" then
    if args.confirm = some "yes" then runBash backend args.command
    else (bashCancelledResult, [])
  else if functionName = "claude_grep" then grepFiles backend args.pattern none
  else (⟨[⟨"Unknown function: " ++ functionName⟩], true⟩, [])

/-- The direct pass-through `claude-write` tool (`index.ts` lines
696-714).  Its schema declares `confirm` as the literal enum `"yes"`
and the handler re-checks `confirm !== "yes"`; an absent or different
value therefore yields an error result without touching the backend,
which this composition models with an `Option`-valued `confirm`. -/
def claudeWriteDirect (backend : McpBackend) (file_path content : String)
    (confirm : Option String) : ClaudeToolResult × List BackendCall :=
  if confirm ≠ some "yes" then (writeCancelledResult, [])
  else writeFile backend (some file_path) (some content)

/-- The direct pass-through `claude-bash` tool (`index.ts` lines
716-733), same gating as `claudeWriteDirect`. -/
def claudeBashDirect (backend : McpBackend) (command : String)
    (confirm : Option String) : ClaudeToolResult × List BackendCall :=
  if confirm ≠ some "yes" then (bashCancelledResult, [])
  else runBash backend (some command)

/-!  ## Diff builder (`index.ts`, `executeDiff`)  -/

/-- Membership in the regex character class `[a-zA-Z0-9/_.\-~^]`. -/
def isRefChar (c : Char) : Bool :=
  c.isAlpha || c.isDigit || c = '/' || c = '_' || c = '.' || c = '-' ||
    c = '~' || c = '^'

/-- Semantics of `refPattern = /^(?!-)[a-zA-Z0-9\/_.\-~^]+$/` applied
via `.test`: the string is non-empty, does not start with `-` (the
negative lookahead), and consists only of class characters. -/
def refPatternTest (s : String) : Bool :=
  !(s = "") && !(strStartsWith s "-") && s.data.all isRefChar

/-- Output of one `git` execution (`execFileAsync`). -/
structure GitOutput where
  stdout : String
  stderr : String
deriving Repr, DecidableEq

/-- Ref validation plus argument-vector construction, i.e. the part of
`executeDiff` that runs before any external process is spawned
(`index.ts` lines 66-94).  `to` participates only when truthy (a
present, non-empty string), matching the JS `if (to && ...)` /
`if (to)` tests; `unstaged` defaults to `true` unless explicitly
`false` (`unstaged !== false`). -/
def buildDiffArgs (fromRef : String) (toRef : Option String)
    (unstaged : Option Bool) : Except String (List String) :=
  if refPatternTest fromRef = false then
    .error ("Invalid git reference format: " ++ fromRef)
  else
    let toTruthy := optTruthy toRef
    if toTruthy && !(refPatternTest (toRef.getD "")) then
      .error ("Invalid git reference format: " ++ toRef.getD "")
    else
      let base := ["--no-pager", "diff", "--no-ext-diff", "--no-color"]
      if toTruthy then .ok (base ++ [fromRef, toRef.getD ""])
      else if unstaged ≠ some false then .ok (base ++ [fromRef, "--"])
      else .ok (base ++ [fromRef, "HEAD"])

/-- Insertions: lines starting with `+` but not `+++`
(`index.ts` line 121). -/
def countInsertions (content : String) : Nat :=
  ((splitOnChar '\n' content).filter
    (fun line => strStartsWith line "+" && !(strStartsWith line "+++"))).length

/-- Deletions: lines starting with `-` but not `---`
(`index.ts` line 122). -/
def countDeletions (content : String) : Nat :=
  ((splitOnChar '\n' content).filter
    (fun line => strStartsWith line "-" && !(strStartsWith line "---"))).length

/-- `line.split(' ')[3]?.replace('b/', '') || ''`: the token a
`diff --git` header contributes to the changed-files set. -/
def gitHeaderToken (line : String) : String :=
  match (splitOnChar ' ' line).get? 3 with
  | some t => replaceFirst t "b/" ""
  | none => ""

/-- Changed files: the size of the `Set` built from the `b/`-stripped
fourth tokens of `diff --git` header lines, dropping falsy (empty)
tokens (`index.ts` lines 123-128). -/
def countChangedFiles (content : String) : Nat :=
  ((((splitOnChar '\n' content).filter
      (fun line => strStartsWith line "diff --git")).map gitHeaderToken).filter
    (fun t => t ≠ "")).dedup.length

/-- The summary line `"${changedFiles} files changed, ..."`. -/
def diffSummary (content : String) : String :=
  toString (countChangedFiles content) ++ " files changed, " ++
    toString (countInsertions content) ++ " insertions(+), " ++
    toString (countDeletions content) ++ " deletions(-)"

/-- The oversize rejection message (`index.ts` lines 114-117). -/
def oversizeMessage (lineCount : Nat) : String :=
  "Diff too large (" ++ toString lineCount ++
    " lines, limit: 10,000). Consider:\n- Specifying a smaller commit range\n- Adding file paths to limit scope\n- Breaking down the analysis into smaller parts"

/-- The structured result of a successful diff. -/
structure DiffResult where
  content : String
  summary : String
  command : String
  lineCount : Nat
deriving Repr, DecidableEq

/-- `executeDiff` (`index.ts` lines 60-138): validate refs, build the
argument vector, run `git` (the `git` parameter is the external
process, an oracle from argument vectors to outputs), fail on
non-warning stderr, fail above 10,000 lines, and otherwise produce the
diff content with its summary. -/
def executeDiff (git : List String → GitOutput) (fromRef : String)
    (toRef : Option String) (unstaged : Option Bool) :
    Except String DiffResult :=
  match buildDiffArgs fromRef toRef unstaged with
  | .error e => .error e
  | .ok args =>
    let out := git args
    let command := "git " ++ joinSep " " args
    if out.stderr ≠ "" ∧ containsSub out.stderr "warning" = false then
      .error ("Git diff failed: " ++ out.stderr)
    else
      let lineCount := (splitOnChar '\n' out.stdout).length
      if 10000 < lineCount then .error (oversizeMessage lineCount)
      else
        .ok ⟨out.stdout, diffSummary out.stdout, command, lineCount⟩

/-!  ## Conversation store (`conversationStore.ts`)

Both store variants in the repository (the in-memory one and the
persistent one) implement `createOrUpdateConversation` with the same
entry-append logic; the persistent variant additionally rewrites the
conversation's file, which does not alter the stored value.  The store
is modeled as a map from ids to conversations; `new Date().toISOString()`
is the `now` parameter. -/

/-- One request/response round (`ConversationEntry`). -/
structure ConversationEntry where
  timestamp : String
  input : String
  filePaths : Option (List String)
  response : String
deriving Repr, DecidableEq

/-- A stored conversation (`Conversation`). -/
structure Conversation where
  id : String
  createdAt : String
  updatedAt : String
  entries : List ConversationEntry
deriving Repr, DecidableEq

/-- The in-memory index `Map<string, Conversation>`. -/
def Store := String → Option Conversation

/-- `getConversation` (`conversations.get(id) || null`). -/
def getConversation (s : Store) (id : String) : Option Conversation :=
  s id

/-- `conversations.set(id, conversation)`. -/
def storeSet (s : Store) (id : String) (conv : Conversation) : Store :=
  fun k => if k = id then some conv else s k

/-- `createOrUpdateConversation` (`conversationStore.ts`): create a
fresh one-entry conversation for an unknown id, otherwise push the new
entry and bump `updatedAt`. -/
def createOrUpdateConversation (s : Store) (id input response : String)
    (filePaths : Option (List String)) (now : String) : Store :=
  let entry : ConversationEntry := ⟨now, input, filePaths, response⟩
  match getConversation s id with
  | none => storeSet s id ⟨id, now, now, [entry]⟩
  | some conv =>
    storeSet s id ⟨conv.id, conv.createdAt, now, conv.entries ++ [entry]⟩

/-!  ## The bounded reasoning loop (`index.ts`, lines 436-582)

The reasoning engine is an oracle from the iteration number (the value
of `depth` after its increment) to either a thrown exception
(`Except.error`) or a response.  Any concrete run of the source against
the real, history-dependent engine induces such a sequence, so
quantifying over oracles covers all runs.  -/

/-- A content part of a `message` output item. -/
inductive MsgContent where
  | outputText (text : String)
  | otherContent
deriving Repr, DecidableEq

/-- An output item of an engine response: a requested function call, a
message, or anything else (reasoning items, web-search items, ...). -/
inductive OutputItem where
  | functionCall (name : String) (args : FnArgs) (callId : Option String)
  | message (contents : List MsgContent)
  | otherItem
deriving Repr, DecidableEq

/-- An engine response; an absent `output` array is the empty list. -/
structure EngineResponse where
  output : List OutputItem
deriving Repr, DecidableEq

/-- Whether an output item is a function call. -/
def OutputItem.isFC : OutputItem → Bool
  | .functionCall _ _ _ => true
  | _ => false

/-- `hasFunctionCalls`: some output item is a function call. -/
def hasFunctionCalls (items : List OutputItem) : Bool :=
  items.any OutputItem.isFC

/-- `result.content?.map(item => item.text).join('\n') || 'No result'`. -/
def resultTextOf (r : ClaudeToolResult) : String :=
  let s := joinSep "\n" (r.content.map TextSeg.text)
  if s = "" then "No result" else s

/-- The per-iteration `allToolResults` additions: for every dispatched
function call, `"**${functionName}** result:\n" + resultText`
(`index.ts` lines 505-515). -/
def toolSummaries (backend : McpBackend) (items : List OutputItem) :
    List String :=
  items.filterMap fun it =>
    match it with
    | .functionCall name args _ =>
      some ("**" ++ name ++ "** result:\n" ++
        resultTextOf (dispatchFunctionCall backend name args).1)
    | _ => none

/-- The texts collected from `message` items: every `output_text`
content part with truthy (non-empty) text (`index.ts` lines 534-548). -/
def messageTexts (items : List OutputItem) : List String :=
  items.foldr
    (fun it acc =>
      match it with
      | .message parts =>
        (parts.filterMap fun p =>
          match p with
          | .outputText t => if t ≠ "" then some t else none
          | .otherContent => none) ++ acc
      | _ => acc) []

/-- `currentResponseText`: the collected texts joined with newlines
(`""` when none were collected). -/
def currentResponseText (items : List OutputItem) : String :=
  joinSep "\n" (messageTexts items)

/-- The fixed fallback message substituted near exhaustion. -/
def fallbackText : String :=
  "ツールの実行は完了しましたが、最終的な回答を取得できませんでした。"

/-- Which exit the loop took (instrumentation over the source's `break`
sites; the source only keeps `responseText`). -/
inductive LoopOutcome where
  | accepted
  | fellBack
  | exhausted
  | engineError (msg : String)
deriving Repr, DecidableEq

/-- The observable result of the loop: outcome, the `responseText`
variable at exit, the accumulated `allToolResults`, and the number of
engine calls made (the final `depth`). -/
structure LoopResult where
  outcome : LoopOutcome
  responseText : String
  toolResults : List String
  calls : Nat
deriving Repr, DecidableEq

/-- The `while (depth < maxDepth)` loop (`index.ts` lines 443-577).
`fuel` is a structural-recursion bound kept at least `maxDepth - depth`
by the entry point, so the `depth < maxDepth` test is the authoritative
loop condition.  Each iteration: call the engine (an exception ends the
invocation), dispatch every requested function call and record its
summary, then either accept a non-blank text-only answer, substitute
the fallback message when a call-free blank iteration happens at
`depth >= maxDepth - 1`, or continue. -/
def runLoopGo (engine : Nat → Except String EngineResponse)
    (backend : McpBackend) (maxDepth : Nat) :
    Nat → Nat → List String → LoopResult
  | 0, depth, acc => ⟨.exhausted, "", acc, depth⟩
  | fuel + 1, depth, acc =>
    if depth < maxDepth then
      match engine (depth + 1) with
      | .error e => ⟨.engineError e, "", acc, depth + 1⟩
      | .ok resp =>
        let hasFC := hasFunctionCalls resp.output
        let acc' := acc ++ toolSummaries backend resp.output
        let curText := currentResponseText resp.output
        if hasFC = false ∧ trimString curText ≠ "" then
          ⟨.accepted, curText, acc', depth + 1⟩
        else if hasFC = false ∧ trimString curText = "" ∧
            maxDepth - 1 ≤ depth + 1 then
          ⟨.fellBack, fallbackText, acc', depth + 1⟩
        else runLoopGo engine backend maxDepth fuel (depth + 1) acc'
    else ⟨.exhausted, "", acc, depth⟩

/-- The loop from its initial state (`depth = 0`, empty accumulator). -/
def runLoop (engine : Nat → Except String EngineResponse)
    (backend : McpBackend) (maxDepth : Nat) : LoopResult :=
  runLoopGo engine backend maxDepth maxDepth 0 []

/-- The source's iteration cap (`const maxDepth = 30`). -/
def maxDepthDefault : Nat := 30

/-!  ## The `ask-gpt-o3-extremely-smart` handler (`index.ts` 208-619)

Only the parts that decide the verified claims are modeled: the diff
early-return, the loop, the trace append, the persistence call and the
catch block.  Building the prompt/input items does not influence any
observable of the model (the engine is an oracle), so it is omitted. -/

/-- `responseText` after the post-loop trace append (`index.ts` lines
580-582). -/
def finalTextOf (r : LoopResult) : String :=
  if 0 < r.toolResults.length then
    r.responseText ++ "\n\n---\n**Tools Used:**\n" ++
      joinSep "\n\n" r.toolResults
  else r.responseText

/-- What one invocation returns to the MCP caller, plus the number of
engine calls it made (instrumentation). -/
structure HandlerResult where
  content : List TextSeg
  engineCalls : Nat
deriving Repr, DecidableEq

/-- The loop-and-persist tail of the handler: run the loop; an engine
exception reaches the catch block, which answers with a single
`Error: ...` segment and persists nothing; otherwise the trace is
appended, the exchange is saved via `createOrUpdateConversation`, and
the text plus the conversation id are returned. -/
def handlerMain (backend : McpBackend)
    (engine : Nat → Except String EngineResponse) (maxDepth : Nat)
    (store : Store) (convId input : String)
    (file_paths : Option (List String)) (now : String) :
    HandlerResult × Store :=
  let r := runLoop engine backend maxDepth
  match r.outcome with
  | .engineError e => (⟨[⟨"Error: " ++ e⟩], r.calls⟩, store)
  | _ =>
    let finalText := finalTextOf r
    (⟨[⟨finalText⟩, ⟨"\n\n---\nConversation ID: " ++ convId⟩], r.calls⟩,
      createOrUpdateConversation store convId input finalText file_paths now)

/-- The whole handler: when a truthy `from` ref is supplied, the diff
builder runs first and any diff failure is returned immediately
(`index.ts` lines 217-250) — zero engine calls, store untouched;
otherwise the loop tail runs. -/
def handler (backend : McpBackend) (git : List String → GitOutput)
    (engine : Nat → Except String EngineResponse) (maxDepth : Nat)
    (store : Store) (convId input : String)
    (file_paths : Option (List String)) (fromRef toRef : Option String)
    (unstaged : Option Bool) (now : String) : HandlerResult × Store :=
  match fromRef with
  | some f =>
    if f = "" then
      handlerMain backend engine maxDepth store convId input file_paths now
    else
      match executeDiff git f toRef unstaged with
      | .error e => (⟨[⟨"Error: " ++ e⟩], 0⟩, store)
      | .ok _ =>
        handlerMain backend engine maxDepth store convId input file_paths now
  | none =>
    handlerMain backend engine maxDepth store convId input file_paths now

/-!  ## Concrete fixtures used by witnesses and counterexamples  -/

/-- A backend oracle answering every call with a falsy result. -/
def backendNone : McpBackend := fun _ _ => none

/-- A git oracle producing an empty diff. -/
def gitEmpty : List String → GitOutput := fun _ => ⟨"", ""⟩

/-- The empty conversation store. -/
def emptyStore : Store := fun _ => none

/-- An engine response consisting of a single function call. -/
def fcOnlyResponse : EngineResponse :=
  ⟨[.functionCall "claude_grep" { FnArgs.empty with pattern := some "x" } none]⟩

/-- An engine that requests a tool call on every iteration. -/
def engineAllFC : Nat → Except String EngineResponse :=
  fun _ => .ok fcOnlyResponse

/-!  ## Loop lemmas  -/

/-- An iteration without function calls records no tool summaries. -/
theorem toolSummaries_eq_nil (backend : McpBackend) (items : List OutputItem)
    (h : hasFunctionCalls items = false) : toolSummaries backend items = [] := by
  induction items with
  | nil => rfl
  | cons it its ih =>
    rw [hasFunctionCalls, List.any_cons, Bool.or_eq_false_iff] at h
    obtain ⟨h1, h2⟩ := h
    cases it with
    | functionCall n a c => exact absurd h1 (by simp [OutputItem.isFC])
    | message parts =>
      rw [toolSummaries, List.filterMap_cons]
      exact ih h2
    | otherItem =>
      rw [toolSummaries, List.filterMap_cons]
      exact ih h2

/-- Once `depth` has reached the cap, the loop exits immediately. -/
theorem runLoopGo_stop (engine : Nat → Except String EngineResponse)
    (backend : McpBackend) (maxDepth : Nat) (fuel depth : Nat)
    (acc : List String) (h : maxDepth ≤ depth) :
    runLoopGo engine backend maxDepth fuel depth acc =
      ⟨.exhausted, "", acc, depth⟩ := by
  cases fuel with
  | zero => rfl
  | succ n => rw [runLoopGo, if_neg (Nat.not_lt.mpr h)]

/-- The loop never makes more engine calls than the cap. -/
theorem runLoopGo_calls_le (engine : Nat → Except String EngineResponse)
    (backend : McpBackend) (maxDepth : Nat) :
    ∀ fuel depth acc, depth ≤ maxDepth →
      (runLoopGo engine backend maxDepth fuel depth acc).calls ≤ maxDepth := by
  intro fuel
  induction fuel with
  | zero => intro depth acc h; exact h
  | succ n ih =>
    intro depth acc h
    rw [runLoopGo]
    by_cases hd : depth < maxDepth
    · rw [if_pos hd]
      cases hE : engine (depth + 1) with
      | error e => exact hd
      | ok resp =>
        dsimp only
        split
        · exact hd
        · split
          · exact hd
          · exact ih (depth + 1) _ hd
    · rw [if_neg hd]
      exact h

/-- The `responseText` at exit is determined by the outcome: the
fallback exit carries the fixed fallback message and cap exhaustion
leaves the initial empty string. -/
theorem runLoopGo_text_of_outcome (engine : Nat → Except String EngineResponse)
    (backend : McpBackend) (maxDepth : Nat) :
    ∀ fuel depth acc,
      ((runLoopGo engine backend maxDepth fuel depth acc).outcome = .fellBack →
        (runLoopGo engine backend maxDepth fuel depth acc).responseText =
          fallbackText) ∧
      ((runLoopGo engine backend maxDepth fuel depth acc).outcome = .exhausted →
        (runLoopGo engine backend maxDepth fuel depth acc).responseText = "") := by
  intro fuel
  induction fuel with
  | zero => intro depth acc; exact ⟨(fun h => nomatch h), fun _ => rfl⟩
  | succ n ih =>
    intro depth acc
    rw [runLoopGo]
    by_cases hd : depth < maxDepth
    · rw [if_pos hd]
      cases hE : engine (depth + 1) with
      | error e => exact ⟨(fun h => nomatch h), fun h => nomatch h⟩
      | ok resp =>
        dsimp only
        split
        · exact ⟨(fun h => nomatch h), fun h => nomatch h⟩
        · split
          · exact ⟨fun _ => rfl, fun h => nomatch h⟩
          · exact ih (depth + 1) _
    · rw [if_neg hd]
      exact ⟨(fun h => nomatch h), fun _ => rfl⟩

/-- Characterization of the accepting exit: provided the loop actually
runs (positive remaining budget), it ends `accepted` exactly when the
response consumed at its final engine call has no function calls and a
non-blank (after trimming) candidate text — and the accepted
`responseText` is that candidate text. -/
theorem runLoopGo_accept_char (engine : Nat → Except String EngineResponse)
    (backend : McpBackend) (maxDepth : Nat) :
    ∀ fuel depth acc, maxDepth ≤ depth + fuel → depth < maxDepth →
      (((runLoopGo engine backend maxDepth fuel depth acc).outcome = .accepted) ↔
        ∃ resp, engine (runLoopGo engine backend maxDepth fuel depth acc).calls =
            .ok resp ∧
          hasFunctionCalls resp.output = false ∧
          trimString (currentResponseText resp.output) ≠ "") ∧
      (∀ resp,
        engine (runLoopGo engine backend maxDepth fuel depth acc).calls = .ok resp →
        (runLoopGo engine backend maxDepth fuel depth acc).outcome = .accepted →
        (runLoopGo engine backend maxDepth fuel depth acc).responseText =
          currentResponseText resp.output) := by
  intro fuel
  induction fuel with
  | zero =>
    intro depth acc hfuel hlt
    omega
  | succ n ih =>
    intro depth acc hfuel hlt
    rw [runLoopGo, if_pos hlt]
    cases hE : engine (depth + 1) with
    | error e =>
      refine ⟨⟨(fun h => nomatch h), ?_⟩, (fun resp hr => nomatch hE ▸ hr)⟩
      rintro ⟨resp, hr, -, -⟩
      rw [hE] at hr; cases hr
    | ok resp =>
      dsimp only
      split
      · rename_i hcond
        refine ⟨⟨fun _ => ⟨resp, hE, hcond.1, hcond.2⟩, fun _ => rfl⟩, ?_⟩
        intro resp' hr _
        rw [hE, Except.ok.injEq] at hr
        rw [hr]
      · rename_i hcond1
        split
        · rename_i hcond2
          refine ⟨⟨(fun h => nomatch h), ?_⟩, (fun resp' hr h => nomatch h)⟩
          rintro ⟨resp', hr, hfc, htext⟩
          rw [hE, Except.ok.injEq] at hr
          subst hr
          exact (htext hcond2.2.1).elim
        · rename_i hcond2
          by_cases hnext : depth + 1 < maxDepth
          · exact ih (depth + 1) _ (by omega) hnext
          · have hstop : maxDepth ≤ depth + 1 := Nat.not_lt.mp hnext
            rw [runLoopGo_stop engine backend maxDepth n (depth + 1) _ hstop]
            refine ⟨⟨(fun h => nomatch h), ?_⟩, (fun resp' hr h => nomatch h)⟩
            rintro ⟨resp', hr, hfc, htext⟩
            rw [hE, Except.ok.injEq] at hr
            subst hr
            exact (hcond1 ⟨hfc, htext⟩).elim

/-- Running the loop against an engine that requests exactly one tool
call on every iteration before `k` and answers with call-free non-blank
text at iteration `k ≤ maxDepth`: from any intermediate state the loop
accepts at iteration `k` with one recorded summary per tool
iteration. -/
theorem runLoopGo_scenario (engine : Nat → Except String EngineResponse)
    (backend : McpBackend) (maxDepth k : Nat) (fcResp : Nat → EngineResponse)
    (finalResp : EngineResponse) (hkm : k ≤ maxDepth)
    (hfc : ∀ i, 1 ≤ i → i < k → engine i = .ok (fcResp i))
    (hfcH : ∀ i, 1 ≤ i → i < k → hasFunctionCalls (fcResp i).output = true)
    (hfc1 : ∀ i, 1 ≤ i → i < k →
      (toolSummaries backend (fcResp i).output).length = 1)
    (hfin : engine k = .ok finalResp)
    (hnoFC : hasFunctionCalls finalResp.output = false)
    (hText : trimString (currentResponseText finalResp.output) ≠ "") :
    ∀ fuel depth acc, depth < k → maxDepth ≤ depth + fuel →
      (runLoopGo engine backend maxDepth fuel depth acc).outcome = .accepted ∧
      (runLoopGo engine backend maxDepth fuel depth acc).responseText =
        currentResponseText finalResp.output ∧
      (runLoopGo engine backend maxDepth fuel depth acc).calls = k ∧
      (runLoopGo engine backend maxDepth fuel depth acc).toolResults.length =
        acc.length + (k - 1 - depth) := by
  intro fuel
  induction fuel with
  | zero => intro depth acc h1 h2; omega
  | succ n ih =>
    intro depth acc h1 h2
    have hd : depth < maxDepth := lt_of_lt_of_le h1 hkm
    rw [runLoopGo, if_pos hd]
    by_cases hk : depth + 1 = k
    · rw [hk, hfin]
      dsimp only
      rw [if_pos ⟨hnoFC, hText⟩]
      refine ⟨rfl, rfl, rfl, ?_⟩
      dsimp only
      rw [toolSummaries_eq_nil backend _ hnoFC]
      simp only [List.append_nil]
      omega
    · have h1' : depth + 1 < k := by omega
      rw [hfc (depth + 1) (by omega) h1']
      dsimp only
      have hfcTrue := hfcH (depth + 1) (by omega) h1'
      rw [if_neg (by rintro ⟨ha, -⟩; rw [hfcTrue] at ha; exact Bool.noConfusion ha),
        if_neg (by rintro ⟨ha, -⟩; rw [hfcTrue] at ha; exact Bool.noConfusion ha)]
      have hrec := ih (depth + 1)
        (acc ++ toolSummaries backend (fcResp (depth + 1)).output) h1' (by omega)
      refine ⟨hrec.1, hrec.2.1, hrec.2.2.1, ?_⟩
      rw [hrec.2.2.2, List.length_append, hfc1 (depth + 1) (by omega) h1']
      omega

/-!  ## Theorems  -/

/-- C1: the loop stops accepting the iteration's candidate text as the
final response exactly when that iteration produced zero tool calls and
a candidate text that is non-empty after trimming; in particular, an
engine emitting one tool call on each of iterations `1..k-1` and a
call-free non-blank text at iteration `k ≤ cap` terminates the loop at
exactly iteration `k` with `k-1` recorded tool round-trips. -/
theorem claim1_loop_termination_rule (backend : McpBackend)
    (engine : Nat → Except String EngineResponse) (maxDepth k : Nat)
    (fcResp : Nat → EngineResponse) (finalResp : EngineResponse)
    (hk1 : 1 ≤ k) (hkm : k ≤ maxDepth)
    (hfc : ∀ i, 1 ≤ i → i < k → engine i = .ok (fcResp i))
    (hfcH : ∀ i, 1 ≤ i → i < k → hasFunctionCalls (fcResp i).output = true)
    (hfc1 : ∀ i, 1 ≤ i → i < k →
      (toolSummaries backend (fcResp i).output).length = 1)
    (hfin : engine k = .ok finalResp)
    (hnoFC : hasFunctionCalls finalResp.output = false)
    (hText : trimString (currentResponseText finalResp.output) ≠ "") :
    (runLoop engine backend maxDepth).outcome = .accepted ∧
    (runLoop engine backend maxDepth).responseText =
      currentResponseText finalResp.output ∧
    (runLoop engine backend maxDepth).calls = k ∧
    (runLoop engine backend maxDepth).toolResults.length = k - 1 ∧
    (∀ engine2 : Nat → Except String EngineResponse,
      (((runLoop engine2 backend maxDepth).outcome = .accepted) ↔
        ∃ resp, engine2 (runLoop engine2 backend maxDepth).calls = .ok resp ∧
          hasFunctionCalls resp.output = false ∧
          trimString (currentResponseText resp.output) ≠ "") ∧
      (∀ resp, engine2 (runLoop engine2 backend maxDepth).calls = .ok resp →
        (runLoop engine2 backend maxDepth).outcome = .accepted →
        (runLoop engine2 backend maxDepth).responseText =
          currentResponseText resp.output)) := by
  have hsc := runLoopGo_scenario engine backend maxDepth k fcResp finalResp
    hkm hfc hfcH hfc1 hfin hnoFC hText maxDepth 0 [] (by omega) (by omega)
  refine ⟨hsc.1, hsc.2.1, hsc.2.2.1, ?_, ?_⟩
  · have h4 := hsc.2.2.2
    simpa using h4
  · intro engine2
    exact runLoopGo_accept_char engine2 backend maxDepth maxDepth 0 []
      (by omega) (by omega)

/-- An engine response carrying only the non-blank text `answer`. -/
def textOnlyResponse : EngineResponse :=
  ⟨[.message [.outputText "answer"]]⟩

/-- An engine that requests one tool call on iterations 1 and 2 and
answers with text-only output from iteration 3 on. -/
def fcEngineW : Nat → Except String EngineResponse :=
  fun i => if i < 3 then .ok fcOnlyResponse else .ok textOnlyResponse

/-- C1 witness: the scenario theorem at `k = 3`, cap 5: termination at
iteration 3 with 2 recorded tool round-trips. -/
theorem claim1_witness :
    (runLoop fcEngineW backendNone 5).outcome = .accepted ∧
    (runLoop fcEngineW backendNone 5).responseText =
      currentResponseText textOnlyResponse.output ∧
    (runLoop fcEngineW backendNone 5).calls = 3 ∧
    (runLoop fcEngineW backendNone 5).toolResults.length = 3 - 1 :=
  have h := claim1_loop_termination_rule backendNone fcEngineW 5 3
    (fun _ => fcOnlyResponse) textOnlyResponse (by omega) (by omega)
    (fun i h1 h2 => by simp [fcEngineW, h2])
    (fun i h1 h2 =>
      (by decide : hasFunctionCalls fcOnlyResponse.output = true))
    (fun i h1 h2 =>
      (by decide : (toolSummaries backendNone fcOnlyResponse.output).length = 1))
    (by rfl) (by decide) (by decide)
  ⟨h.1, h.2.1, h.2.2.1, h.2.2.2.1⟩

/-- C2: for every cap `N ≥ 1`, one invocation of the loop makes at most
`N` engine calls and terminates. -/
theorem claim2_loop_call_cap (engine : Nat → Except String EngineResponse)
    (backend : McpBackend) (N : Nat) (_hN : 1 ≤ N) :
    (runLoop engine backend N).calls ≤ N :=
  runLoopGo_calls_le engine backend N N 0 [] (Nat.zero_le N)

/-- C2 witness: the cap theorem at `N = 1` against a concrete engine. -/
theorem claim2_witness :
    1 ≤ 1 ∧ (runLoop engineAllFC backendNone 1).calls ≤ 1 :=
  ⟨by decide, claim2_loop_call_cap engineAllFC backendNone 1 (by decide)⟩

/-- C3 counterexample: an engine that requests a tool call on every
iteration reaches the cap (2 calls, `exhausted`, no iteration satisfied
the termination rule), yet the invocation's response does not contain
the fixed fallback message anywhere — the loop exits with an empty
`responseText` and only the tool trace is returned. -/
theorem claim3_counterexample :
    (runLoop engineAllFC backendNone 2).outcome = .exhausted ∧
    (runLoop engineAllFC backendNone 2).calls = 2 ∧
    (runLoop engineAllFC backendNone 2).responseText = "" ∧
    containsSub
      (joinSep ""
        (((handler backendNone gitEmpty engineAllFC 2 emptyStore "c" "q"
              none none none none "t").1.content).map TextSeg.text))
      fallbackText = false := by
  decide

/-- C3 (amended): the fixed fallback message is substituted only when a
call-free, blank iteration occurs at depth ≥ cap − 1; when the cap is
exhausted with the final iteration still making tool calls, the
invocation instead returns an empty main text plus the accumulated tool
trace — in both cases the handler answers normally (text plus
conversation id, exchange persisted), with no exception. -/
theorem claim3_fallback_amended (backend : McpBackend)
    (git : List String → GitOutput) (engine : Nat → Except String EngineResponse)
    (maxDepth : Nat) (store : Store) (convId input : String)
    (fps : Option (List String)) (now : String) :
    ((runLoop engine backend maxDepth).outcome = .fellBack →
      (runLoop engine backend maxDepth).responseText = fallbackText) ∧
    ((runLoop engine backend maxDepth).outcome = .exhausted →
      (runLoop engine backend maxDepth).responseText = "") ∧
    ((runLoop engine backend maxDepth).outcome = .fellBack ∨
        (runLoop engine backend maxDepth).outcome = .exhausted →
      handler backend git engine maxDepth store convId input fps
          none none none now =
        (⟨[⟨finalTextOf (runLoop engine backend maxDepth)⟩,
            ⟨"\n\n---\nConversation ID: " ++ convId⟩],
          (runLoop engine backend maxDepth).calls⟩,
          createOrUpdateConversation store convId input
            (finalTextOf (runLoop engine backend maxDepth)) fps now)) := by
  refine ⟨(runLoopGo_text_of_outcome engine backend maxDepth maxDepth 0 []).1,
    (runLoopGo_text_of_outcome engine backend maxDepth maxDepth 0 []).2, ?_⟩
  rintro (h | h)
  · simp [handler, handlerMain, h]
  · simp [handler, handlerMain, h]

/-- An engine answering with neither tool calls nor text. -/
def engineBlank : Nat → Except String EngineResponse := fun _ => .ok ⟨[]⟩

/-- C3 witness: with cap 1 and a blank call-free response, the loop
substitutes the fixed fallback message. -/
theorem claim3_witness :
    (runLoop engineBlank backendNone 1).responseText = fallbackText :=
  (claim3_fallback_amended backendNone gitEmpty engineBlank 1 emptyStore
    "c" "q" none "t").1 (by decide)

/-- C6: when the engine call raises (and any requested diff succeeded,
so the loop was actually entered), the whole invocation answers with a
single `Error:` segment and the conversation store is left exactly as
it was — no partial entry is persisted. -/
theorem claim6_engine_error_no_persist (backend : McpBackend)
    (git : List String → GitOutput) (engine : Nat → Except String EngineResponse)
    (maxDepth : Nat) (store : Store) (convId input : String)
    (fps : Option (List String)) (fromRef toRef : Option String)
    (unstaged : Option Bool) (now : String) (e : String)
    (hrun : (runLoop engine backend maxDepth).outcome = .engineError e)
    (hdiff : ∀ f, fromRef = some f → f ≠ "" →
      ∃ d, executeDiff git f toRef unstaged = .ok d) :
    handler backend git engine maxDepth store convId input fps
        fromRef toRef unstaged now =
      (⟨[⟨"Error: " ++ e⟩], (runLoop engine backend maxDepth).calls⟩, store) := by
  cases fromRef with
  | none => simp [handler, handlerMain, hrun]
  | some f =>
    by_cases hf : f = ""
    · simp [handler, hf, handlerMain, hrun]
    · obtain ⟨d, hd⟩ := hdiff f rfl hf
      simp [handler, hf, hd, handlerMain, hrun]

/-- An engine whose very first call throws. -/
def engineErrW : Nat → Except String EngineResponse := fun _ => .error "boom"

/-- C6 witness: a first-call engine exception yields the single error
response and leaves the empty store untouched. -/
theorem claim6_witness :
    handler backendNone gitEmpty engineErrW 1 emptyStore "c" "q"
        none none none none "t" =
      (⟨[⟨"Error: " ++ "boom"⟩], (runLoop engineErrW backendNone 1).calls⟩,
        emptyStore) :=
  claim6_engine_error_no_persist backendNone gitEmpty engineErrW 1 emptyStore
    "c" "q" none none none none "t" "boom" (by decide)
    (fun f hf => nomatch hf)

/-- C7: a failing diff request (invalid ref, git failure or oversize
output) makes the invocation return the error immediately — zero engine
calls, store untouched; and any diff whose clean output exceeds 10,000
lines fails with the fixed guidance message (no truncated diff). -/
theorem claim7_diff_failure_terminal (backend : McpBackend)
    (git : List String → GitOutput) (engine : Nat → Except String EngineResponse)
    (maxDepth : Nat) (store : Store) (convId input : String)
    (fps : Option (List String)) (toRef : Option String) (unstaged : Option Bool)
    (now : String) (f e : String) (hf : f ≠ "")
    (hdiff : executeDiff git f toRef unstaged = .error e) :
    handler backend git engine maxDepth store convId input fps
        (some f) toRef unstaged now =
      (⟨[⟨"Error: " ++ e⟩], 0⟩, store) ∧
    (∀ (git2 : List String → GitOutput) (f2 : String) (t2 : Option String)
        (u2 : Option Bool) (args : List String),
      buildDiffArgs f2 t2 u2 = .ok args → (git2 args).stderr = "" →
      10000 < (splitOnChar '\n' (git2 args).stdout).length →
      executeDiff git2 f2 t2 u2 =
        .error (oversizeMessage ((splitOnChar '\n' (git2 args).stdout).length))) := by
  constructor
  · simp [handler, hf, hdiff]
  · intro git2 f2 t2 u2 args hargs hstderr hbig
    rw [executeDiff, hargs]
    dsimp only
    rw [if_neg (by simp [hstderr]), if_pos hbig]

/-- C7 witness: an invalid from-ref is answered directly, with zero
engine calls, for a concrete invocation. -/
theorem claim7_witness :
    handler backendNone gitEmpty engineAllFC 3 emptyStore "c" "q" none
        (some "-x") none none "t" =
      (⟨[⟨"Error: " ++ "Invalid git reference format: -x"⟩], 0⟩, emptyStore) :=
  (claim7_diff_failure_terminal backendNone gitEmpty engineAllFC 3 emptyStore
    "c" "q" none none none "t" "-x" "Invalid git reference format: -x"
    (by decide) (by rfl)).1

/-- C5 counterexample: the claim requires every to-string handed to the
diff builder to be rejected when it is empty, but the source validates
`to` only when truthy (`if (to && !refPattern.test(to))`): with a valid
`from` and the empty to-string, no "Invalid git reference format" error
is raised — the empty `to` is treated as absent, the working-tree
argument vector is built, and git is executed successfully. -/
theorem claim5_counterexample :
    ("" : String) = "" ∧
    buildDiffArgs "HEAD" (some "") none =
      .ok ["--no-pager", "diff", "--no-ext-diff", "--no-color", "HEAD", "--"] ∧
    executeDiff gitEmpty "HEAD" (some "") none =
      .ok ⟨"", "0 files changed, 0 insertions(+), 0 deletions(-)",
        "git --no-pager diff --no-ext-diff --no-color HEAD --", 1⟩ :=
  ⟨rfl, rfl, rfl⟩

/-- C5 (amended): the `from` ref, and every *non-empty* `to` ref, is
rejected (before any external process is consulted — the error is
produced for every conceivable `git` oracle) exactly when it is empty,
starts with `-`, or contains a character outside `[A-Za-z0-9/_.~^-]`;
an empty to-string is not rejected but treated as an absent `to`
(working-tree comparison); `HEAD~1`, `feature/x` and `v1.0.0` are
accepted. -/
theorem claim5_ref_validation_amended :
    (∀ s : String, refPatternTest s = false ↔
      s = "" ∨ strStartsWith s "-" = true ∨ ∃ c ∈ s.data, isRefChar c = false) ∧
    (∀ (git : List String → GitOutput) (s : String) (toRef : Option String)
        (unstaged : Option Bool), refPatternTest s = false →
      executeDiff git s toRef unstaged =
        .error ("Invalid git reference format: " ++ s)) ∧
    (∀ (git : List String → GitOutput) (f t : String) (unstaged : Option Bool),
      refPatternTest f = true → t ≠ "" → refPatternTest t = false →
      executeDiff git f (some t) unstaged =
        .error ("Invalid git reference format: " ++ t)) ∧
    (∀ (f : String) (unstaged : Option Bool),
      buildDiffArgs f (some "") unstaged = buildDiffArgs f none unstaged) ∧
    refPatternTest "HEAD~1" = true ∧ refPatternTest "feature/x" = true ∧
      refPatternTest "v1.0.0" = true := by
  refine ⟨?_, ?_, ?_, fun f unstaged => rfl, by decide, by decide, by decide⟩
  · intro s
    constructor
    · intro h
      by_cases hs : s = ""
      · exact Or.inl hs
      by_cases hd : strStartsWith s "-" = true
      · exact Or.inr (Or.inl hd)
      refine Or.inr (Or.inr ?_)
      by_contra hc
      push_neg at hc
      have hall : s.data.all isRefChar = true := by
        rw [List.all_eq_true]
        intro c hmem
        have := hc c hmem
        simpa using this
      rw [refPatternTest, hall] at h
      simp [hs, hd] at h
    · rintro (h | h | ⟨c, hmem, hbad⟩)
      · simp [refPatternTest, h]
      · simp [refPatternTest, h]
      · have : s.data.all isRefChar = false := by
          rw [Bool.eq_false_iff]
          intro hall
          rw [List.all_eq_true] at hall
          have := hall c hmem
          rw [hbad] at this
          exact Bool.false_ne_true this
        simp [refPatternTest, this]
  · intro git s toRef unstaged h
    simp [executeDiff, buildDiffArgs, h]
  · intro git f t unstaged hf ht hbad
    simp [executeDiff, buildDiffArgs, hf, optTruthy, ht, hbad]

/-- C5 witness: instantiating the amended validation theorem at the
concrete rejected from-ref `-x`, the rejected non-empty to-ref `a b`,
and the accepted ref `HEAD~1`. -/
theorem claim5_witness :
    executeDiff gitEmpty "-x" none none =
      .error ("Invalid git reference format: " ++ "-x") ∧
    executeDiff gitEmpty "HEAD" (some "a b") none =
      .error ("Invalid git reference format: " ++ "a b") ∧
    refPatternTest "HEAD~1" = true :=
  ⟨claim5_ref_validation_amended.2.1 gitEmpty "-x" none none (by decide),
    claim5_ref_validation_amended.2.2.1 gitEmpty "HEAD" "a b" none
      (by decide) (by decide) (by decide),
    claim5_ref_validation_amended.2.2.2.2.1⟩

/-- C8 counterexample: a backend result whose `content` is an *empty
array* is truthy in JavaScript, so `normalizeMcpResult` maps it to zero
segments with the error flag clear — not to the single
"no content received" error segment the claim requires for empty
content. -/
theorem claim8_counterexample :
    normalizeMcpResult (some ⟨some []⟩) = ⟨[], false⟩ ∧
    normalizeMcpResult (some ⟨some []⟩) ≠
      ⟨[⟨"No content received from Claude tool"⟩], true⟩ := by
  decide

/-- C8 (amended): a missing/falsy result or a missing/falsy `content`
field yields the single "no content received" segment with the error
flag set (an empty content array instead yields an empty segment list,
error flag clear); otherwise every item maps by tag with the error flag
clear: text items with truthy text pass through verbatim, image items
with truthy data become a placeholder naming the media type, resource
items use the resource's text, else its uri, else `[Resource]`, and
everything else (including text/image items with falsy payloads) is
serialized generically.  An image-only result yields exactly one
segment naming the media type, error flag clear. -/
theorem claim8_normalizer_amended :
    normalizeMcpResult none = ⟨[⟨"No content received from Claude tool"⟩], true⟩ ∧
    (∀ r : McpResult, r.content = none →
      normalizeMcpResult (some r) =
        ⟨[⟨"No content received from Claude tool"⟩], true⟩) ∧
    (∀ items : List McpItem,
      normalizeMcpResult (some ⟨some items⟩) = ⟨items.map normalizeMcpItem, false⟩) ∧
    (∀ t : String, t ≠ "" → normalizeMcpItem (.text (some t)) = ⟨t⟩) ∧
    (∀ (d : String) (mt : Option String), d ≠ "" →
      normalizeMcpItem (.image (some d) mt) =
        ⟨"[Image data: " ++ mimeOrUnknown mt ++ "]"⟩) ∧
    (∀ (res : McpResource) (t : String), res.text = some t → t ≠ "" →
      normalizeMcpItem (.resource (some res)) = ⟨t⟩) ∧
    (∀ (res : McpResource) (u : String), optTruthy res.text = false →
      res.uri = some u → u ≠ "" →
      normalizeMcpItem (.resource (some res)) = ⟨u⟩) ∧
    (∀ res : McpResource, optTruthy res.text = false → optTruthy res.uri = false →
      normalizeMcpItem (.resource (some res)) = ⟨"[Resource]"⟩) ∧
    (∀ j : String, normalizeMcpItem (.other j) = ⟨j⟩) ∧
    (∀ d m : String, d ≠ "" → m ≠ "" →
      normalizeMcpResult (some ⟨some [.image (some d) (some m)]⟩) =
        ⟨[⟨"[Image data: " ++ m ++ "]"⟩], false⟩) := by
  refine ⟨rfl, ?_, ?_, ?_, ?_, ?_, ?_, ?_, fun j => rfl, ?_⟩
  · intro r h
    cases r with
    | mk c => cases h; rfl
  · intro items; rfl
  · intro t h; simp [normalizeMcpItem, optTruthy, h]
  · intro d mt h; simp [normalizeMcpItem, optTruthy, h]
  · intro res t hres h
    simp [normalizeMcpItem, optTruthy, hres, h]
  · intro res u htext hres h
    simp only [normalizeMcpItem, htext]
    simp [optTruthy, hres, h]
  · intro res htext huri
    simp [normalizeMcpItem, htext, huri]
  · intro d m hd hm
    simp [normalizeMcpResult, normalizeMcpItem, optTruthy, mimeOrUnknown, hd, hm]

/-- C8 witness: the image-only conjunct at a concrete media type. -/
theorem claim8_witness :
    normalizeMcpResult (some ⟨some [.image (some "x") (some "image/png")]⟩) =
      ⟨[⟨"[Image data: " ++ "image/png" ++ "]"⟩], false⟩ :=
  claim8_normalizer_amended.2.2.2.2.2.2.2.2.2 "x" "image/png" (by decide) (by decide)

/-- C9 counterexample: two *distinct* `diff --git` header lines that
share the same `b/`-stripped fourth token are counted as a single
changed file by the code, while the claim's rule "number of distinct
`diff --git` header lines" would count two. -/
theorem claim9_counterexample :
    countChangedFiles "diff --git a/f b/f\ndiff --git c/f b/f" = 1 ∧
    ((splitOnChar '\n' "diff --git a/f b/f\ndiff --git c/f b/f").filter
      (fun l => strStartsWith l "diff --git")).dedup.length = 2 := by
  decide

/-- C9 (amended): insertions are lines starting with `+` but not `+++`,
deletions are lines starting with `-` but not `---`, and changed files
are the *distinct non-empty `b/`-stripped fourth tokens* of the
`diff --git` header lines (not the distinct header lines themselves);
every successful diff reports exactly these counts in its summary, and
the claim's concrete example yields 1 insertion and 1 deletion. -/
theorem claim9_summary_amended :
    (∀ content : String, countInsertions content =
      (splitOnChar '\n' content).countP
        (fun line => strStartsWith line "+" && !(strStartsWith line "+++"))) ∧
    (∀ content : String, countDeletions content =
      (splitOnChar '\n' content).countP
        (fun line => strStartsWith line "-" && !(strStartsWith line "---"))) ∧
    (∀ content : String, countChangedFiles content =
      ((((splitOnChar '\n' content).filter
          (fun line => strStartsWith line "diff --git")).map gitHeaderToken).filter
        (fun t => t ≠ "")).dedup.length) ∧
    (∀ (git : List String → GitOutput) (fromRef : String) (toRef : Option String)
        (unstaged : Option Bool) (res : DiffResult),
      executeDiff git fromRef toRef unstaged = .ok res →
      res.summary = toString (countChangedFiles res.content) ++ " files changed, " ++
        toString (countInsertions res.content) ++ " insertions(+), " ++
        toString (countDeletions res.content) ++ " deletions(-)") ∧
    countInsertions "diff --git a/f b/f\n--- a/f\n+++ b/f\n+added\n-removed" = 1 ∧
    countDeletions "diff --git a/f b/f\n--- a/f\n+++ b/f\n+added\n-removed" = 1 := by
  refine ⟨?_, ?_, fun content => rfl, ?_, by decide, by decide⟩
  · intro content
    rw [countInsertions, List.countP_eq_length_filter]
  · intro content
    rw [countDeletions, List.countP_eq_length_filter]
  · intro git fromRef toRef unstaged res h
    rw [executeDiff] at h
    split at h
    · exact absurd h (by simp)
    · dsimp only at h
      split at h
      · exact absurd h (by simp)
      · split at h
        · exact absurd h (by simp)
        · rw [Except.ok.injEq] at h
          subst h
          rfl

/-- C9 witness: the summary conjunct applied to a concrete successful
diff execution (empty diff against `HEAD`). -/
theorem claim9_witness :
    ("0 files changed, 0 insertions(+), 0 deletions(-)" : String) =
      toString (countChangedFiles "") ++ " files changed, " ++
      toString (countInsertions "") ++ " insertions(+), " ++
      toString (countDeletions "") ++ " deletions(-)" :=
  claim9_summary_amended.2.2.2.1 gitEmpty "HEAD" none none
    ⟨"", "0 files changed, 0 insertions(+), 0 deletions(-)",
      "git --no-pager diff --no-ext-diff --no-color HEAD --", 1⟩ (by rfl)

/-- C10: `createOrUpdateConversation` appends exactly one entry at the
end of an existing conversation, leaving its id, creation timestamp and
all previous entries unchanged, and creates a fresh one-entry
conversation for an unknown id. -/
theorem claim10_store_append (s : Store) (id input response : String)
    (fps : Option (List String)) (now : String) :
    (∀ conv : Conversation, s id = some conv →
      createOrUpdateConversation s id input response fps now id =
        some ⟨conv.id, conv.createdAt, now,
          conv.entries ++ [⟨now, input, fps, response⟩]⟩) ∧
    (s id = none →
      createOrUpdateConversation s id input response fps now id =
        some ⟨id, now, now, [⟨now, input, fps, response⟩]⟩) := by
  constructor
  · intro conv h
    simp [createOrUpdateConversation, getConversation, h, storeSet]
  · intro h
    simp [createOrUpdateConversation, getConversation, h, storeSet]

/-- C10 witness: appending to a concrete one-entry conversation keeps
the old entry and adds the new one at the end. -/
theorem claim10_witness :
    createOrUpdateConversation
      (fun k => if k = "a" then
        some ⟨"a", "t0", "t0", [⟨"t0", "hi", none, "yo"⟩]⟩ else none)
      "a" "in" "out" none "t1" "a" =
      some ⟨"a", "t0", "t1",
        [⟨"t0", "hi", none, "yo"⟩] ++ [⟨"t1", "in", none, "out"⟩]⟩ :=
  (claim10_store_append _ "a" "in" "out" none "t1").1
    ⟨"a", "t0", "t0", [⟨"t0", "hi", none, "yo"⟩]⟩ (by decide)

/-- C4: every mutating tool call — `claude_write` / `claude_bash`
dispatched inside the loop, and the direct pass-through tools — whose
`confirm` argument is absent or differs from the literal `"yes"`
returns the error-flagged cancellation result and performs zero calls
to the external tool-execution backend. -/
theorem claim4_confirmation_gate :
    (∀ (backend : McpBackend) (args : FnArgs), args.confirm ≠ some "yes" →
      dispatchFunctionCall backend "claude_write" args = (writeCancelledResult, []) ∧
      dispatchFunctionCall backend "claude_bash" args = (bashCancelledResult, [])) ∧
    (∀ (backend : McpBackend) (fp c : String) (confirm : Option String),
      confirm ≠ some "yes" →
      claudeWriteDirect backend fp c confirm = (writeCancelledResult, [])) ∧
    (∀ (backend : McpBackend) (cmd : String) (confirm : Option String),
      confirm ≠ some "yes" →
      claudeBashDirect backend cmd confirm = (bashCancelledResult, [])) ∧
    writeCancelledResult.isError = true ∧ bashCancelledResult.isError = true := by
  refine ⟨?_, ?_, ?_, rfl, rfl⟩
  · intro backend args h
    constructor
    · simp [dispatchFunctionCall, h]
    · simp [dispatchFunctionCall, h]
  · intro backend fp c confirm h
    simp [claudeWriteDirect, h]
  · intro backend cmd confirm h
    simp [claudeBashDirect, h]

/-- C4 witness: the gate at concrete unconfirmed calls (absent
`confirm` in the loop dispatch, wrong literal in the direct tool). -/
theorem claim4_witness :
    dispatchFunctionCall backendNone "claude_write" FnArgs.empty =
      (writeCancelledResult, []) ∧
    claudeBashDirect backendNone "rm -rf /" (some "no") =
      (bashCancelledResult, []) :=
  ⟨((claim4_confirmation_gate.1 backendNone FnArgs.empty (by decide)).1),
    claim4_confirmation_gate.2.2.1 backendNone "rm -rf /" (some "no") (by decide)⟩

end O3Search
